import Mathlib

/-!
Shallow embedding of the draw-worker core of the webworkerRenderingTest
repository (src/src/workers/Worker.ts and the result gate of
src/src/components/Viewer.tsx), together with theorems settling the
frozen claims about it.

Modelling conventions:
* JavaScript numbers that the code only ever adds, subtracts and compares
  are embedded as `Int` (timestamps, coordinates, durations).
* The JavaScript `%` operator is the truncated remainder (the result takes
  the sign of the dividend); it is embedded as `jsRem` below.
* Promise resolvers stored by `AsyncQueue.dequeue` are embedded as opaque
  consumer identifiers (`Nat`); `enqueue` reports to which pending consumer
  an item was handed, if any.
* The cooperative yield points of `draw` (`isCurrentRunCancelled`) are
  driven by an explicit environment: a list with one entry per yield point,
  `some r` meaning a concurrently handled message set `currentRunId` to
  `r` during the yield, `none` meaning no interference.  The unforgeable
  random run id and the wall-clock completion time are also environment
  inputs.
* `console` logging and `postMessage` transfer are side effects outside the
  state; a draw's emitted result is the `Option DrawResult` component of
  its return value.
-/

/-- Rectangle from src/src/types.ts: `{x, y, width, height}`. -/
structure Rectangle where
  x : Int
  y : Int
  width : Int
  height : Int
deriving DecidableEq, Repr

/-- The inline `{width, height}` image-dimensions object of `DrawMessage`. -/
structure ImageDimensions where
  width : Int
  height : Int
deriving DecidableEq, Repr

/-- DrawResult from Worker.ts (the constant `action: "drawComplete"` tag is
implicit in the type; the `ImageBitmap` payload is an opaque id). -/
structure DrawResult where
  runId : String
  timestamp : Int
  viewport : Rectangle
  bitmap : Nat
deriving DecidableEq, Repr

/-- IncomingMesssage from Worker.ts (the spelling with three `s` is the
source's): either a `CancelMessage` or a `DrawMessage`. -/
inductive IncomingMesssage where
  | cancel : IncomingMesssage
  | draw (imageDimensions : ImageDimensions) (bufferWidth : Int)
      (viewport : Rectangle) : IncomingMesssage
deriving DecidableEq, Repr

/-- Test for `message.action === "draw"`. -/
def IncomingMesssage.isDraw : IncomingMesssage → Bool
  | .draw _ _ _ => true
  | .cancel => false

/-- Test for `message.action === "cancel"`. -/
def IncomingMesssage.isCancel : IncomingMesssage → Bool
  | .draw _ _ _ => false
  | .cancel => true

/-- AsyncQueue from Worker.ts: a buffer of items plus the list of pending
`dequeue` resolvers (opaque consumer ids), both FIFO. -/
structure AsyncQueue (T : Type) where
  queue : List T
  resolvers : List Nat
deriving DecidableEq, Repr

/-- Outcome of `dequeue()`: either the head of the buffer, resolved
immediately, or a suspension (the caller's resolver was parked). -/
inductive DequeueResult (T : Type) where
  | immediate (item : T) : DequeueResult T
  | suspended : DequeueResult T
deriving DecidableEq, Repr

/-- AsyncQueue.enqueue: if a resolver is pending, shift the first one off
and hand the item straight to it (the item never touches the buffer);
otherwise push the item at the tail of the buffer.  The second component
reports the consumer id that received the item, if any. -/
def AsyncQueue.enqueue {T : Type} (q : AsyncQueue T) (item : T) :
    AsyncQueue T × Option (Nat × T) :=
  match q.resolvers with
  | r :: rs => ({ q with resolvers := rs }, some (r, item))
  | [] => ({ q with queue := q.queue ++ [item] }, none)

/-- AsyncQueue.dequeue: if the buffer is non-empty, shift its head off and
return it immediately; otherwise park the caller's resolver (`freshId`) at
the tail of the resolver list and suspend. -/
def AsyncQueue.dequeue {T : Type} (q : AsyncQueue T) (freshId : Nat) :
    AsyncQueue T × DequeueResult T :=
  match q.queue with
  | x :: xs => ({ q with queue := xs }, DequeueResult.immediate x)
  | [] => ({ q with resolvers := q.resolvers ++ [freshId] }, DequeueResult.suspended)

/-- The structural invariant of `AsyncQueue`: the item buffer and the
pending-resolver list are never both non-empty. -/
def AsyncQueue.wellFormed {T : Type} (q : AsyncQueue T) : Prop :=
  q.queue = [] ∨ q.resolvers = []


/-- The tile granularity of the draw executor: `const tileSize = 40`. -/
def tileSize : Int := 40

/-- JavaScript's `%` on integers: the truncated remainder, whose result
takes the sign of the dividend (`-50 % 40 === -10` in JavaScript, while
Lean's `emod` gives 30).  For a non-negative dividend it agrees with
`emod`; for a negative dividend it is the negated `emod` of the negation. -/
def jsRem (a n : Int) : Int :=
  if 0 ≤ a then a % n else -((-a) % n)

/-- Line 139 of Worker.ts: `const startX = viewport.x - (viewport.x % tileSize)`. -/
def startX (viewport : Rectangle) : Int :=
  viewport.x - jsRem viewport.x tileSize

/-- Line 138 of Worker.ts: `const startY = viewport.y - (viewport.y % tileSize)`. -/
def startY (viewport : Rectangle) : Int :=
  viewport.y - jsRem viewport.y tileSize


/-- Debounce window from Worker.ts: `const MAX_IMAGE_AGE_MS = 250`. -/
def MAX_IMAGE_AGE_MS : Int := 250

/-- The module-scoped mutable state of `workerFunction`: the message queue,
the `isProcessingMessages` flag, the current-run slot (`""` meaning none),
the last completed result, and the start time of the current drain session
(reset to 0 when the drain loop finishes). -/
structure WorkerState where
  queue : AsyncQueue IncomingMesssage
  isProcessingMessages : Bool
  currentRunId : String
  lastDrawResult : Option DrawResult
  queueProcessingStarted : Int
deriving DecidableEq, Repr

/-- cancelCurrentDraw from Worker.ts: `currentRunId = ""`. -/
def cancelCurrentDraw (st : WorkerState) : WorkerState :=
  { st with currentRunId := "" }

/-- Line 172 of Worker.ts, the compare-and-clear at the end of a completed
draw: `currentRunId = currentRunId == myRunId ? "" : currentRunId`. -/
def clearRunSlot (currentRunId myRunId : String) : String :=
  if currentRunId = myRunId then "" else currentRunId

/-- Environment of one `draw` call: the freshly minted random run id, one
interference event per cooperative yield point (`some r` = a concurrently
handled message set `currentRunId` to `r` during that yield), whether
`canvas.getContext("2d")` succeeds, the `Date.now()` completion timestamp,
and the opaque id of the transferred bitmap.  The yield-point counts (one
per heavy-computation round, one per tile row) are abstracted as the list
lengths. -/
structure DrawEnv where
  myRunId : String
  heavyChecks : List (Option String)
  ctxOk : Bool
  rowChecks : List (Option String)
  completionTime : Int
  bitmap : Nat
deriving DecidableEq, Repr

/-- A run of `isCurrentRunCancelled` checks: starting from the current value
of the run slot, each yield point first applies its interference event to
the slot and then compares the slot against `myRunId`; the run stops at the
first mismatch.  Returns the final slot value and whether every check
passed (`true` = never cancelled). -/
def runCancellationChecks (myRunId : String) : String → List (Option String) → String × Bool
  | cur, [] => (cur, true)
  | cur, ev :: evs =>
    let cur' := ev.getD cur
    if cur' = myRunId then runCancellationChecks myRunId cur' evs else (cur', false)

/-- draw from Worker.ts: install the fresh run id as current; run the heavy
computation, aborting silently if a cancellation check fails; acquire the
2D context, returning silently (slot untouched) if that fails; run the tile
rows, aborting silently if a check fails; on full completion record the
timestamped result as `lastDrawResult`, emit it, and compare-and-clear the
run slot via `clearRunSlot`.  The `imageDimensions` argument only feeds the
tile colouring, which is payload outside this model. -/
def draw (st : WorkerState) (env : DrawEnv) (imageDimensions : ImageDimensions)
    (viewport : Rectangle) : WorkerState × Option DrawResult :=
  let myRunId := env.myRunId
  let heavy := runCancellationChecks myRunId myRunId env.heavyChecks
  if heavy.2 = false then ({ st with currentRunId := heavy.1 }, none)
  else if env.ctxOk = false then ({ st with currentRunId := heavy.1 }, none)
  else
    let rows := runCancellationChecks myRunId heavy.1 env.rowChecks
    if rows.2 = false then ({ st with currentRunId := rows.1 }, none)
    else
      let result : DrawResult :=
        { runId := myRunId, timestamp := env.completionTime,
          viewport := viewport, bitmap := env.bitmap }
      ({ st with lastDrawResult := some result,
                 currentRunId := clearRunSlot rows.1 myRunId }, some result)

/-- handleDrawMessage from Worker.ts: if the buffered queue still contains
a draw message (`queue.items.some(msg => msg.action === "draw")`), drop the
dequeued message without drawing; otherwise run `draw`. -/
def handleDrawMessage (st : WorkerState) (env : DrawEnv)
    (imageDimensions : ImageDimensions) (viewport : Rectangle) :
    WorkerState × Option DrawResult :=
  if st.queue.queue.any IncomingMesssage.isDraw then (st, none)
  else draw st env imageDimensions viewport

/-- handleQueueMessage from Worker.ts: route draw messages to
`handleDrawMessage`; any other action is only logged (`console.warn`) and
dropped. -/
def handleQueueMessage (st : WorkerState) (env : DrawEnv) :
    IncomingMesssage → WorkerState × Option DrawResult
  | .draw dims _ vp => handleDrawMessage st env dims vp
  | .cancel => (st, none)

/-- The `while (queue.items.length > 0)` drain loop of processQueue.  The
message handler is abstracted as `handle` so that an unexpected fault can
be modelled: `handle m st = (st', true)` means handling `m` threw after
reaching state `st'`, which exits the loop (the catch at the loop boundary
logs and swallows it).  `fuel` bounds the iterations (the handler may grow
the queue, so the loop is not structurally decreasing). -/
def drainLoop (handle : IncomingMesssage → WorkerState → WorkerState × Bool) :
    Nat → WorkerState → WorkerState
  | 0, st => st
  | fuel + 1, st =>
    match st.queue.queue with
    | [] => st
    | m :: rest =>
      let step := handle m { st with queue := { st.queue with queue := rest } }
      if step.2 then step.1 else drainLoop handle fuel step.1

/-- processQueue from Worker.ts: set `isProcessingMessages`, stamp
`queueProcessingStarted = Date.now()`, drain the queue (faults are caught
at this boundary and logged), and in the `finally` block clear the flag and
reset the stamp to 0 regardless of how the loop exited. -/
def processQueue (handle : IncomingMesssage → WorkerState → WorkerState × Bool)
    (fuel : Nat) (now : Int) (st : WorkerState) : WorkerState :=
  let st0 := { st with isProcessingMessages := true, queueProcessingStarted := now }
  let st1 := drainLoop handle fuel st0
  { st1 with isProcessingMessages := false, queueProcessingStarted := 0 }

/-- Lines 220-223 of Worker.ts: `cancelByNewDrawRequest` is true when the
message is a draw and either the drain loop started less than
`MAX_IMAGE_AGE_MS` ago or a last completed result exists whose timestamp
plus `MAX_IMAGE_AGE_MS` is still ahead of `now`. -/
def cancelByNewDrawRequest (st : WorkerState) (now : Int) (m : IncomingMesssage) : Bool :=
  m.isDraw &&
    (decide (now - st.queueProcessingStarted < MAX_IMAGE_AGE_MS) ||
      match st.lastDrawResult with
      | some r => decide (now < r.timestamp + MAX_IMAGE_AGE_MS)
      | none => false)

/-- The synchronous part of `self.onmessage` from Worker.ts: cancel the
current run when `cancelByNewDrawRequest` fires or the action is "cancel";
enqueue every non-cancel message; report whether a drain session should be
started (`shouldQueue && !isProcessingMessages`).  The guard for messages
without an `action` field cannot arise in the typed embedding. -/
def onmessage (st : WorkerState) (now : Int) (m : IncomingMesssage) :
    WorkerState × Bool :=
  let shouldCancel := cancelByNewDrawRequest st now m || m.isCancel
  let st1 := if shouldCancel then cancelCurrentDraw st else st
  if m.isCancel then (st1, false)
  else
    ({ st1 with queue := (st1.queue.enqueue m).1 }, !st1.isProcessingMessages)

/-- The result gate installed as `workerRef.current.onmessage` in
Viewer.tsx: drop the incoming result when the already stored one has a
strictly greater timestamp, otherwise overwrite `drawResultRef.current`
with the incoming result. -/
def viewerOnMessage (drawResultRef : Option DrawResult) (result : DrawResult) :
    Option DrawResult :=
  match drawResultRef with
  | some cur => if cur.timestamp > result.timestamp then some cur else some result
  | none => some result

/-- The gate applied to a whole sequence of delivered results, left to
right, starting from the current `drawResultRef`. -/
def gateRun (init : Option DrawResult) (results : List DrawResult) :
    Option DrawResult :=
  results.foldl viewerOnMessage init

/-- A sample viewport, image dimensions and draw message for concrete
evaluations. -/
def vpDemo : Rectangle := { x := 0, y := 0, width := 1000, height := 800 }

/-- Image dimensions used by the demo app (10000 by 10000). -/
def dimsDemo : ImageDimensions := { width := 10000, height := 10000 }

/-- A concrete draw message. -/
def drawMsgDemo : IncomingMesssage := .draw dimsDemo 100 vpDemo

/-- A second, distinct concrete draw message. -/
def drawMsgDemo2 : IncomingMesssage :=
  .draw dimsDemo 100 { x := 40, y := 0, width := 1000, height := 800 }

/-- The worker's initial state: empty queue, not processing, no current
run, no last result, drain-session stamp 0. -/
def stIdle : WorkerState :=
  { queue := { queue := [], resolvers := [] }, isProcessingMessages := false,
    currentRunId := "", lastDrawResult := none, queueProcessingStarted := 0 }

/-- A worker state mid-drain: one draw message already buffered, the drain
loop busy (started at time 50), run "run1" in flight. -/
def stBusy : WorkerState :=
  { queue := { queue := [drawMsgDemo], resolvers := [] },
    isProcessingMessages := true, currentRunId := "run1",
    lastDrawResult := none, queueProcessingStarted := 50 }

/-- `stBusy` right after its buffered message has been dequeued inside a
drain session that started at time 60. -/
def stBusyDequeued : WorkerState :=
  { queue := { queue := [], resolvers := [] }, isProcessingMessages := true,
    currentRunId := "run1", lastDrawResult := none, queueProcessingStarted := 60 }

/-- A draw environment that completes successfully. -/
def envOk : DrawEnv :=
  { myRunId := "r1", heavyChecks := [none], ctxOk := true, rowChecks := [none],
    completionTime := 500, bitmap := 7 }

/-- A draw environment whose 2D-context acquisition fails. -/
def envCtxFail : DrawEnv :=
  { myRunId := "r1", heavyChecks := [none, none], ctxOk := false, rowChecks := [],
    completionTime := 500, bitmap := 7 }

/-- The result produced by `draw stIdle envOk dimsDemo vpDemo`. -/
def resOk : DrawResult :=
  { runId := "r1", timestamp := 500, viewport := vpDemo, bitmap := 7 }

/-- Two results with equal timestamps and an additional newer one, for the
result-gate claims. -/
def resTieA : DrawResult := { runId := "a", timestamp := 100, viewport := vpDemo, bitmap := 1 }

/-- A result tied with `resTieA` on timestamp but otherwise distinct. -/
def resTieB : DrawResult := { runId := "b", timestamp := 100, viewport := vpDemo, bitmap := 2 }

/-- A result strictly newer than `resTieA`. -/
def resNewer : DrawResult := { runId := "c", timestamp := 150, viewport := vpDemo, bitmap := 3 }

/-- A worker state whose last completed result has timestamp 1000. -/
def stAfterResult : WorkerState :=
  { queue := { queue := [], resolvers := [] }, isProcessingMessages := false,
    currentRunId := "runA",
    lastDrawResult := some { runId := "runA", timestamp := 1000, viewport := vpDemo, bitmap := 4 },
    queueProcessingStarted := 0 }

/-- C8: `enqueue(item)` hands the item directly to the first waiting
consumer when one or more dequeues are pending (one resolver is woken and
removed, the buffer is untouched, the item is never stored); otherwise the
item is appended at the tail of the buffer.  `dequeue()` returns the
buffer's head immediately when the buffer is non-empty (removing it), and
otherwise suspends, parking exactly one resolver. -/
theorem asyncQueue_handoff :
    (∀ (T : Type) (q : AsyncQueue T) (item : T) (r : Nat) (rs : List Nat),
        q.resolvers = r :: rs →
        q.enqueue item = ({ q with resolvers := rs }, some (r, item))) ∧
    (∀ (T : Type) (q : AsyncQueue T) (item : T),
        q.resolvers = [] →
        q.enqueue item = ({ q with queue := q.queue ++ [item] }, none)) ∧
    (∀ (T : Type) (q : AsyncQueue T) (freshId : Nat) (x : T) (xs : List T),
        q.queue = x :: xs →
        q.dequeue freshId = ({ q with queue := xs }, DequeueResult.immediate x)) ∧
    (∀ (T : Type) (q : AsyncQueue T) (freshId : Nat),
        q.queue = [] →
        q.dequeue freshId =
          ({ q with resolvers := q.resolvers ++ [freshId] }, DequeueResult.suspended)) := by
  refine ⟨?_, ?_, ?_, ?_⟩ <;> intro T q
  · intro item r rs h
    simp [AsyncQueue.enqueue, h]
  · intro item h
    simp [AsyncQueue.enqueue, h]
  · intro freshId x xs h
    simp [AsyncQueue.dequeue, h]
  · intro freshId h
    simp [AsyncQueue.dequeue, h]

/-- Witness for `asyncQueue_handoff` at concrete queues. -/
theorem asyncQueue_handoff_witness :
    (AsyncQueue.enqueue ({ queue := [], resolvers := [7, 8] } : AsyncQueue Nat) 42 =
      ({ queue := [], resolvers := [8] }, some (7, 42))) ∧
    (AsyncQueue.dequeue ({ queue := [5, 6], resolvers := [] } : AsyncQueue Nat) 9 =
      ({ queue := [6], resolvers := [] }, DequeueResult.immediate 5)) :=
  ⟨asyncQueue_handoff.1 Nat { queue := [], resolvers := [7, 8] } 42 7 [8] rfl,
   asyncQueue_handoff.2.2.1 Nat { queue := [5, 6], resolvers := [] } 9 5 [6] rfl⟩

/-- C10: every `enqueue` and every `dequeue`, applied to a queue whose
buffer and resolver list are not both non-empty, yields a queue that still
satisfies that invariant. -/
theorem asyncQueue_invariant :
    ∀ (T : Type) (q : AsyncQueue T) (item : T) (freshId : Nat),
      q.wellFormed → (q.enqueue item).1.wellFormed ∧ (q.dequeue freshId).1.wellFormed := by
  intro T q item freshId hwf
  constructor
  · match hr : q.resolvers with
    | r :: rs =>
      have hq : q.queue = [] := by
        rcases hwf with h | h
        · exact h
        · rw [h] at hr; cases hr
      simp [AsyncQueue.enqueue, hr, AsyncQueue.wellFormed, hq]
    | [] =>
      simp [AsyncQueue.enqueue, hr, AsyncQueue.wellFormed]
  · match hq : q.queue with
    | x :: xs =>
      have hr : q.resolvers = [] := by
        rcases hwf with h | h
        · rw [h] at hq; cases hq
        · exact h
      simp [AsyncQueue.dequeue, hq, AsyncQueue.wellFormed, hr]
    | [] =>
      simp [AsyncQueue.dequeue, hq, AsyncQueue.wellFormed]

/-- Witness for `asyncQueue_invariant` at a concrete queue. -/
theorem asyncQueue_invariant_witness :
    (AsyncQueue.enqueue ({ queue := [3], resolvers := [] } : AsyncQueue Nat) 4).1.wellFormed ∧
    (AsyncQueue.dequeue ({ queue := [3], resolvers := [] } : AsyncQueue Nat) 0).1.wellFormed :=
  asyncQueue_invariant Nat { queue := [3], resolvers := [] } 4 0 (Or.inr rfl)

/-- Helper: snapping `v` to `v - jsRem v 40` always lands on a multiple of
40; for non-negative `v` it lands at or before `v`, but for negative `v` it
lands at or after `v` (truncation snaps toward zero), never below zero. -/
theorem jsRem_snap (v : Int) :
    (40 ∣ v - jsRem v 40) ∧ (0 ≤ v → v - jsRem v 40 ≤ v) ∧
      (v < 0 → v ≤ v - jsRem v 40 ∧ v - jsRem v 40 ≤ 0) := by
  unfold jsRem
  by_cases h : 0 ≤ v
  · simp only [h, if_pos]
    refine ⟨⟨v / 40, by omega⟩, fun _ => ?_, fun hneg => absurd h (by omega)⟩
    have := Int.emod_nonneg v (show (40 : Int) ≠ 0 by decide)
    omega
  · simp only [h, if_neg, if_false]
    have h1 := Int.emod_nonneg (-v) (show (40 : Int) ≠ 0 by decide)
    have h2 : (-v) % 40 < 40 := Int.emod_lt_of_pos (-v) (by decide)
    refine ⟨⟨-((-v) / 40), by omega⟩, fun h0 => h0.elim, fun _ => ⟨by omega, ?_⟩⟩
    have h3 : 40 * ((-v) / 40) + (-v) % 40 = -v := Int.ediv_add_emod (-v) 40
    have h4 : 0 ≤ (-v) / 40 := Int.ediv_nonneg (by omega) (by decide)
    omega

/-- C5 counterexample: for the viewport `{x := -50, y := -50, ...}` the
computed `startX` is `-40`, a multiple of 40 that is strictly greater than
the viewport's left edge `-50` — not at-or-before it as the claim states. -/
theorem startX_negative_counterexample :
    startX { x := -50, y := -50, width := 800, height := 600 } = -40 ∧
      ¬ startX { x := -50, y := -50, width := 800, height := 600 } ≤ -50 := by
  constructor <;> decide

/-- C5 (amended): the tiling start origin `(startX, startY)` is always a
multiple of the tile size (40); for viewports with non-negative x (resp. y)
it is at-or-before the viewport's top-left corner coordinate, but for
negative coordinates JavaScript's truncated `%` snaps it toward zero: the
origin then lies at-or-after the coordinate and at-or-before zero. -/
theorem startX_startY_snap (vp : Rectangle) :
    (40 ∣ startX vp) ∧ (0 ≤ vp.x → startX vp ≤ vp.x) ∧
      (vp.x < 0 → vp.x ≤ startX vp ∧ startX vp ≤ 0) ∧
      (40 ∣ startY vp) ∧ (0 ≤ vp.y → startY vp ≤ vp.y) ∧
      (vp.y < 0 → vp.y ≤ startY vp ∧ startY vp ≤ 0) := by
  have hx := jsRem_snap vp.x
  have hy := jsRem_snap vp.y
  exact ⟨hx.1, hx.2.1, hx.2.2, hy.1, hy.2.1, hy.2.2⟩

/-- Witness for `startX_startY_snap` at a concrete viewport. -/
theorem startX_startY_snap_witness :
    (40 ∣ startX { x := 130, y := -50, width := 800, height := 600 }) ∧
      startX { x := 130, y := -50, width := 800, height := 600 } ≤ 130 ∧
      -50 ≤ startY { x := 130, y := -50, width := 800, height := 600 } :=
  ⟨(startX_startY_snap { x := 130, y := -50, width := 800, height := 600 }).1,
   (startX_startY_snap { x := 130, y := -50, width := 800, height := 600 }).2.1 (by decide),
   ((startX_startY_snap { x := 130, y := -50, width := 800, height := 600 }).2.2.2.2.2
     (by decide)).1⟩

/-- Helper: a run of cancellation checks with no interference events leaves
the slot at `myRunId` and passes. -/
lemma runCancellationChecks_all_none (my : String) :
    ∀ evs : List (Option String), (∀ ev ∈ evs, ev = none) →
      runCancellationChecks my my evs = (my, true)
  | [], _ => rfl
  | ev :: evs, h => by
    have hev : ev = none := h ev (List.mem_cons_self ev evs)
    have hrest : ∀ e ∈ evs, e = none := fun e he => h e (List.mem_cons_of_mem ev he)
    simp [runCancellationChecks, hev, Option.getD,
      runCancellationChecks_all_none my evs hrest]

/-- Helper: if a run of cancellation checks starting from `myRunId` passes,
the slot still holds `myRunId` at the end. -/
lemma runCancellationChecks_sticky (my : String) :
    ∀ (evs : List (Option String)) (cur : String), cur = my →
      (runCancellationChecks my cur evs).2 = true →
      (runCancellationChecks my cur evs).1 = my
  | [], cur, hc, _ => hc
  | ev :: evs, cur, hc, ht => by
    by_cases h : ev.getD cur = my
    · simp only [runCancellationChecks, h, if_pos] at ht ⊢
      exact runCancellationChecks_sticky my evs my rfl ht
    · simp only [runCancellationChecks, h, if_neg, if_false] at ht
      cases ht

/-- C9: if acquiring the 2D context fails after a heavy-computation phase
whose cancellation checks all pass, `draw` returns silently: no result, no
change to `lastDrawResult`, and the current-run slot is left still holding
the dead run's id (it is not cleared). -/
theorem draw_ctx_failure_silent :
    ∀ (st : WorkerState) (env : DrawEnv) (dims : ImageDimensions) (vp : Rectangle),
      env.ctxOk = false → (∀ ev ∈ env.heavyChecks, ev = none) →
      draw st env dims vp = ({ st with currentRunId := env.myRunId }, none) := by
  intro st env dims vp hctx hnone
  simp [draw, runCancellationChecks_all_none env.myRunId env.heavyChecks hnone, hctx]

/-- Witness for `draw_ctx_failure_silent`: the concrete context-failure
environment leaves the slot holding "r1" and produces nothing. -/
theorem draw_ctx_failure_silent_witness :
    draw stBusy envCtxFail dimsDemo vpDemo =
      ({ stBusy with currentRunId := "r1" }, none) :=
  draw_ctx_failure_silent stBusy envCtxFail dimsDemo vpDemo rfl (by
    intro ev hev
    simp [envCtxFail] at hev
    simp [hev])

/-- C4: the end-of-draw update of the current-run slot is a
compare-and-clear by identity: it clears the slot exactly when the slot
still holds the completing run's own id, and leaves the slot unchanged when
a different id has since been installed; moreover every fully completed
`draw` ends with the slot cleared (the completion path applies
`clearRunSlot` to a slot it still owns). -/
theorem run_slot_compare_and_clear :
    (∀ cur my : String, cur = my → clearRunSlot cur my = "") ∧
    (∀ cur my : String, cur ≠ my → clearRunSlot cur my = cur) ∧
    (∀ (st : WorkerState) (env : DrawEnv) (dims : ImageDimensions) (vp : Rectangle)
        (st' : WorkerState) (r : DrawResult),
        draw st env dims vp = (st', some r) → st'.currentRunId = "") := by
  refine ⟨fun cur my h => by simp [clearRunSlot, h],
          fun cur my h => by simp [clearRunSlot, h], ?_⟩
  intro st env dims vp st' r h
  by_cases h1 : (runCancellationChecks env.myRunId env.myRunId env.heavyChecks).2 = false
  · simp [draw, h1] at h
  · by_cases h2 : env.ctxOk = false
    · simp [draw, h1, h2] at h
    · by_cases h3 : (runCancellationChecks env.myRunId
          (runCancellationChecks env.myRunId env.myRunId env.heavyChecks).1
          env.rowChecks).2 = false
      · simp [draw, h1, h2, h3] at h
      · have hy1 : (runCancellationChecks env.myRunId env.myRunId env.heavyChecks).1
            = env.myRunId :=
          runCancellationChecks_sticky env.myRunId env.heavyChecks env.myRunId rfl
            (by simpa using h1)
        have hy2 : (runCancellationChecks env.myRunId
            (runCancellationChecks env.myRunId env.myRunId env.heavyChecks).1
            env.rowChecks).1 = env.myRunId := by
          rw [hy1] at h3 ⊢
          exact runCancellationChecks_sticky env.myRunId env.rowChecks env.myRunId rfl
            (by simpa using h3)
        simp [draw, h1, h2, h3] at h
        have := h.1
        subst this
        simp [hy2, clearRunSlot]

/-- Witness for `run_slot_compare_and_clear`: a concrete completed draw
ends with the slot cleared, and the two compare-and-clear branches at
concrete strings. -/
theorem run_slot_compare_and_clear_witness :
    clearRunSlot "x" "x" = "" ∧ clearRunSlot "y" "x" = "y" ∧
    (draw stIdle envOk dimsDemo vpDemo).1.currentRunId = "" :=
  ⟨run_slot_compare_and_clear.1 "x" "x" rfl,
   run_slot_compare_and_clear.2.1 "y" "x" (by decide),
   run_slot_compare_and_clear.2.2 stIdle envOk dimsDemo vpDemo
     ({ stIdle with lastDrawResult := some resOk, currentRunId := "" }) resOk rfl⟩

/-- C6: a "cancel" message synchronously clears the current-run slot, is
never enqueued (the queue is untouched and no drain session is started),
and when no draw is active (the slot already holds `""`) it is a complete
no-op: the state is returned unchanged. -/
theorem cancel_no_enqueue_noop :
    ∀ (st : WorkerState) (now : Int),
      onmessage st now .cancel = (cancelCurrentDraw st, false) ∧
      (onmessage st now .cancel).1.queue = st.queue ∧
      (st.currentRunId = "" → onmessage st now .cancel = (st, false)) := by
  intro st now
  have hbase : onmessage st now .cancel = (cancelCurrentDraw st, false) := by
    simp [onmessage, IncomingMesssage.isCancel, cancelByNewDrawRequest,
      IncomingMesssage.isDraw]
  refine ⟨hbase, by simp [hbase, cancelCurrentDraw], fun hempty => ?_⟩
  rw [hbase]
  obtain ⟨q, p, c, l, s⟩ := st
  simp only at hempty
  subst hempty
  rfl

/-- Witness for `cancel_no_enqueue_noop`: a cancel in the idle state (no
active run) leaves the state exactly as it was. -/
theorem cancel_no_enqueue_noop_witness :
    onmessage stIdle 0 .cancel = (stIdle, false) :=
  (cancel_no_enqueue_noop stIdle 0).2.2 rfl

/-- C3: for a draw message, the dispatcher pre-empts (clears the
current-run slot) precisely when the drain loop last started strictly less
than 250 ms before `now`, or a last completed result exists whose
timestamp plus 250 ms is still ahead of `now`; when neither holds the slot
is left unchanged. -/
theorem preemption_condition :
    ∀ (st : WorkerState) (now : Int) (dims : ImageDimensions) (bw : Int) (vp : Rectangle),
      (cancelByNewDrawRequest st now (.draw dims bw vp) = true ↔
        (now - st.queueProcessingStarted < 250 ∨
          ∃ r, st.lastDrawResult = some r ∧ now < r.timestamp + 250)) ∧
      (cancelByNewDrawRequest st now (.draw dims bw vp) = true →
        (onmessage st now (.draw dims bw vp)).1.currentRunId = "") ∧
      (cancelByNewDrawRequest st now (.draw dims bw vp) = false →
        (onmessage st now (.draw dims bw vp)).1.currentRunId = st.currentRunId) := by
  intro st now dims bw vp
  refine ⟨?_, ?_, ?_⟩
  · cases h : st.lastDrawResult with
    | none =>
      simp [cancelByNewDrawRequest, IncomingMesssage.isDraw, h, MAX_IMAGE_AGE_MS]
    | some r =>
      simp [cancelByNewDrawRequest, IncomingMesssage.isDraw, h, MAX_IMAGE_AGE_MS]
  · intro h
    simp [onmessage, h, IncomingMesssage.isCancel, cancelCurrentDraw]
  · intro h
    simp [onmessage, h, IncomingMesssage.isCancel]

/-- Witness for `preemption_condition`: at time 1100 with a last result
stamped 1000, a new draw message pre-empts the in-flight run. -/
theorem preemption_condition_witness :
    (onmessage stAfterResult 1100 (.draw dimsDemo 100 vpDemo)).1.currentRunId = "" :=
  (preemption_condition stAfterResult 1100 dimsDemo 100 vpDemo).2.1 (by decide)

/-- C2 counterexample: in a mid-drain state whose queue already buffers a
draw message, an incoming draw message is NOT dropped by the dispatcher: it
is enqueued as well, so the buffer then holds two draw requests, where the
claim says the buffer holds at most one and the second is dropped. -/
theorem dispatcher_always_enqueues_counterexample :
    stBusy.queue.queue.countP IncomingMesssage.isDraw = 1 ∧
    (onmessage stBusy 60 drawMsgDemo2).1.queue.queue = [drawMsgDemo, drawMsgDemo2] ∧
    (onmessage stBusy 60 drawMsgDemo2).1.queue.queue.countP IncomingMesssage.isDraw = 2 := by
  refine ⟨rfl, ?_, ?_⟩ <;> rfl

/-- C2 (amended): the dispatcher always enqueues an incoming draw message,
even when the queue already buffers one (so the buffer can transiently hold
more than one draw request); the collapsing instead happens at dispatch
time: a dequeued draw message is dropped without drawing exactly when the
queue still contains a buffered draw request, so only the most recently
buffered draw is executed, and in-flight draws do not count toward the
collapsing (only buffered entries are inspected). -/
theorem draw_collapse_at_dispatch :
    (∀ (st : WorkerState) (now : Int) (dims : ImageDimensions) (bw : Int) (vp : Rectangle),
        st.queue.resolvers = [] →
        (onmessage st now (.draw dims bw vp)).1.queue.queue
          = st.queue.queue ++ [.draw dims bw vp]) ∧
    (∀ (st : WorkerState) (env : DrawEnv) (dims : ImageDimensions) (vp : Rectangle),
        st.queue.queue.any IncomingMesssage.isDraw = true →
        handleDrawMessage st env dims vp = (st, none)) ∧
    (∀ (st : WorkerState) (env : DrawEnv) (dims : ImageDimensions) (vp : Rectangle),
        st.queue.queue.any IncomingMesssage.isDraw = false →
        handleDrawMessage st env dims vp = draw st env dims vp) := by
  refine ⟨?_, ?_, ?_⟩
  · intro st now dims bw vp hres
    simp only [onmessage, IncomingMesssage.isCancel, Bool.or_false, Bool.false_eq_true,
      if_false]
    split
    · simp [cancelCurrentDraw, AsyncQueue.enqueue, hres]
    · simp [AsyncQueue.enqueue, hres]
  · intro st env dims vp h
    simp [handleDrawMessage, h]
  · intro st env dims vp h
    simp [handleDrawMessage, h]

/-- Witness for `draw_collapse_at_dispatch`: enqueueing into the idle state
buffers the message, and a dequeued draw is skipped when another draw is
still buffered. -/
theorem draw_collapse_at_dispatch_witness :
    (onmessage stIdle 0 (.draw dimsDemo 100 vpDemo)).1.queue.queue = [drawMsgDemo] ∧
    handleDrawMessage stBusy envOk dimsDemo vpDemo = (stBusy, none) := by
  constructor
  · have h := draw_collapse_at_dispatch.1 stIdle 0 dimsDemo 100 vpDemo rfl
    simpa [stIdle, drawMsgDemo] using h
  · exact draw_collapse_at_dispatch.2.1 stBusy envOk dimsDemo vpDemo rfl

/-- C7: the drain loop's bookkeeping is reset no matter how it exits — for
every handler, fuel and start time, the final state has the processing
flag cleared and the session stamp reset to 0 — and when handling the
dequeued head message faults (modelled by the handler returning `true`),
the session ends in exactly the faulting handler's state with the
bookkeeping reset: the faulting message stays dequeued (not retried), the
rest of the queue is left for later sessions, and no further message of
this session is processed. -/
theorem drain_fault_containment :
    (∀ (handle : IncomingMesssage → WorkerState → WorkerState × Bool)
        (fuel : Nat) (now : Int) (st : WorkerState),
        (processQueue handle fuel now st).isProcessingMessages = false ∧
        (processQueue handle fuel now st).queueProcessingStarted = 0) ∧
    (∀ (handle : IncomingMesssage → WorkerState → WorkerState × Bool)
        (fuel : Nat) (now : Int) (st : WorkerState)
        (m : IncomingMesssage) (rest : List IncomingMesssage) (stf : WorkerState),
        st.queue.queue = m :: rest →
        handle m { st with isProcessingMessages := true, queueProcessingStarted := now,
                           queue := { st.queue with queue := rest } } = (stf, true) →
        processQueue handle (fuel + 1) now st =
          { stf with isProcessingMessages := false, queueProcessingStarted := 0 }) := by
  constructor
  · intro handle fuel now st
    exact ⟨rfl, rfl⟩
  · intro handle fuel now st m rest stf hq hhandle
    obtain ⟨⟨items, res⟩, p, c, l, s⟩ := st
    simp only at hq
    subst hq
    simp only [processQueue, drainLoop] at hhandle ⊢
    rw [hhandle]
    simp

/-- Witness for `drain_fault_containment`: a handler that faults on the
first message leaves the bookkeeping reset, the faulting message dequeued,
and the queue empty for later sessions. -/
theorem drain_fault_containment_witness :
    processQueue (fun _ s => (s, true)) 1 60 stBusy =
      { stBusyDequeued with isProcessingMessages := false, queueProcessingStarted := 0 } :=
  drain_fault_containment.2 (fun _ s => (s, true)) 0 60 stBusy drawMsgDemo []
    stBusyDequeued rfl rfl

/-- Helper: the gate always stores some result, and the stored timestamp
never goes below the previously stored one. -/
lemma viewerOnMessage_mono (cur : Option DrawResult) (r : DrawResult) :
    ∃ c', viewerOnMessage cur r = some c' ∧
      ∀ c, cur = some c → c.timestamp ≤ c'.timestamp := by
  cases cur with
  | none => exact ⟨r, rfl, fun c hc => by cases hc⟩
  | some c =>
    by_cases h : c.timestamp > r.timestamp
    · exact ⟨c, by simp [viewerOnMessage, h], fun c0 hc0 => by
        cases hc0; exact le_refl _⟩
    · exact ⟨r, by simp [viewerOnMessage, h], fun c0 hc0 => by
        cases hc0; omega⟩

/-- Helper: over any delivered sequence, the stored timestamp never
decreases. -/
lemma gateRun_timestamp_mono :
    ∀ (results : List DrawResult) (c c' : DrawResult),
      gateRun (some c) results = some c' → c.timestamp ≤ c'.timestamp
  | [], c, c', h => by
    simp [gateRun] at h
    subst h
    exact le_refl _
  | r :: tl, c, c', h => by
    obtain ⟨c1, hstep, hle⟩ := viewerOnMessage_mono (some c) r
    have hrun : gateRun (some c1) tl = some c' := by
      simpa [gateRun, hstep] using h
    exact le_trans (hle c rfl) (gateRun_timestamp_mono tl c1 c' hrun)

/-- C1 counterexample: the gate admits a result whose timestamp TIES the
already-admitted one — the stored value is replaced, where the claim says
ties are dropped and the exposed value is never replaced by an
equal-timestamp result. -/
theorem gate_tie_admitted_counterexample :
    resTieA.timestamp = resTieB.timestamp ∧
    viewerOnMessage (some resTieA) resTieB = some resTieB ∧
    viewerOnMessage (some resTieA) resTieB ≠ some resTieA := by
  refine ⟨rfl, rfl, ?_⟩
  decide

/-- C1 (amended): the gate admits an incoming result as latest exactly when
no previously admitted result has a strictly greater timestamp — a result
with a strictly smaller timestamp is dropped silently, while ties and newer
results replace the stored value — and consequently over any delivered
sequence the exposed timestamp never decreases (the exposed value is never
replaced by a strictly smaller-timestamped result). -/
theorem gate_monotone_admission :
    (∀ c r : DrawResult, c.timestamp > r.timestamp →
        viewerOnMessage (some c) r = some c) ∧
    (∀ c r : DrawResult, c.timestamp ≤ r.timestamp →
        viewerOnMessage (some c) r = some r) ∧
    (∀ r : DrawResult, viewerOnMessage none r = some r) ∧
    (∀ (results : List DrawResult) (c c' : DrawResult),
        gateRun (some c) results = some c' → c.timestamp ≤ c'.timestamp) := by
  refine ⟨?_, ?_, fun r => rfl, gateRun_timestamp_mono⟩
  · intro c r h
    simp [viewerOnMessage, h]
  · intro c r h
    simp [viewerOnMessage, h, not_lt.mpr h]

/-- Witness for `gate_monotone_admission`: a strictly newer result replaces
the stored one, and the fold over a singleton sequence does not decrease
the exposed timestamp. -/
theorem gate_monotone_admission_witness :
    viewerOnMessage (some resTieA) resNewer = some resNewer ∧
    resTieA.timestamp ≤ resNewer.timestamp :=
  ⟨gate_monotone_admission.2.1 resTieA resNewer (by decide),
   gate_monotone_admission.2.2.2 [resNewer] resTieA resNewer rfl⟩
